import Mathlib

/-!
Verification of the Volta multi-signature governance engine described by the
VoltaHQ documentation. The TypeScript client helpers and the error tables are
embedded directly from the repository sources; the on-chain decision engine
itself is not shipped in this repository, so it is modelled from the
specification (each such definition is marked `Modelled from the spec:`).
-/

deriving instance DecidableEq for Except

namespace Volta

/-- Owner / contract addresses, abstracted to natural numbers. -/
abbrev Address := Nat

/-- Vote types, from the client enum `VoteType` in
`examples/typescript/src/index.ts` (Abstain, Yes, No). -/
inductive VoteType
  | Abstain
  | Yes
  | No
deriving DecidableEq

/-- Proposal statuses, from the client enum `ProposalStatus` in
`examples/typescript/src/index.ts`. -/
inductive ProposalStatus
  | Pending
  | Approved
  | Rejected
  | Executed
  | Revoked
deriving DecidableEq

/-- Contract configuration: owner list, approval threshold, and the
configuration epoch counter described in spec section 3. -/
structure Config where
  owners : List Address
  threshold : Nat
  epoch : Nat
deriving DecidableEq

/-- Number of Yes votes in a votes map (association list owner to vote),
as the client computes it in `calculateVoteProgress`. -/
def yesCount (votes : List (Address × VoteType)) : Nat :=
  votes.countP (fun q => decide (q.2 = VoteType.Yes))

/-- Number of No votes in a votes map. -/
def noCount (votes : List (Address × VoteType)) : Nat :=
  votes.countP (fun q => decide (q.2 = VoteType.No))

/-- Number of Abstain votes in a votes map. -/
def abstainCount (votes : List (Address × VoteType)) : Nat :=
  votes.countP (fun q => decide (q.2 = VoteType.Abstain))

/-- Result record of the client helper `calculateVoteProgress`
(`tutorials/integration.md`). -/
structure VoteProgress where
  yes : Nat
  no : Nat
  abstain : Nat
  remaining : Int
  threshold : Nat
  canPass : Bool
  willPass : Bool
  willFail : Bool
deriving DecidableEq

/-- The client helper `calculateVoteProgress` from `tutorials/integration.md`:
counts Yes/No/Abstain votes, computes `remaining = owners.length - totalVotes`
(a possibly negative JavaScript number, hence `Int` here), and the three flags
`canPass`, `willPass`, `willFail`. -/
def calculateVoteProgress (votes : List (Address × VoteType)) (config : Config) :
    VoteProgress :=
  let yesVotes := yesCount votes
  let noVotes := noCount votes
  let abstainVotes := abstainCount votes
  let totalVotes := yesVotes + noVotes + abstainVotes
  let remaining : Int := (config.owners.length : Int) - (totalVotes : Int)
  { yes := yesVotes
    no := noVotes
    abstain := abstainVotes
    remaining := remaining
    threshold := config.threshold
    canPass := decide ((config.threshold : Int) ≤ (yesVotes : Int) + remaining)
    willPass := decide (config.threshold ≤ yesVotes)
    willFail := decide ((yesVotes : Int) + remaining < (config.threshold : Int)) }

/-- Every vote is exactly one of Yes, No, Abstain, so the three counts
partition the votes list. -/
theorem count_votes_total (l : List (Address × VoteType)) :
    yesCount l + noCount l + abstainCount l = l.length := by
  induction l with
  | nil => simp [yesCount, noCount, abstainCount]
  | cons q t ih =>
    cases hv : q.2 <;>
      simp only [yesCount, noCount, abstainCount, List.countP_cons, hv,
        List.length_cons] at ih ⊢ <;>
      simp <;> omega

/-- A votes list with distinct keys all drawn from `owners` has at most
`owners.length` entries. -/
theorem votes_length_le_owners (votes : List (Address × VoteType))
    (owners : List Address) (hnd : (votes.map Prod.fst).Nodup)
    (hsub : ∀ a ∈ votes.map Prod.fst, a ∈ owners) :
    votes.length ≤ owners.length := by
  have h := (hnd.subperm (fun a ha => hsub a ha)).length_le
  simpa using h

/-- C9: Vote-count conservation and decision exclusivity in the client's
progress computation: when the votes map keys are distinct owners,
`calculateVoteProgress` satisfies `yes + no + abstain + remaining = |owners|`
with `remaining ≥ 0`, and `willPass` and `willFail` are never both true. -/
theorem voteProgress_conservation_exclusive (votes : List (Address × VoteType))
    (cfg : Config) (hnd : (votes.map Prod.fst).Nodup)
    (hsub : ∀ a ∈ votes.map Prod.fst, a ∈ cfg.owners) :
    ((calculateVoteProgress votes cfg).yes + (calculateVoteProgress votes cfg).no
        + (calculateVoteProgress votes cfg).abstain : Int)
        + (calculateVoteProgress votes cfg).remaining = cfg.owners.length ∧
    0 ≤ (calculateVoteProgress votes cfg).remaining ∧
    ¬((calculateVoteProgress votes cfg).willPass = true ∧
      (calculateVoteProgress votes cfg).willFail = true) := by
  have htri := count_votes_total votes
  have hlen := votes_length_le_owners votes cfg.owners hnd hsub
  simp only [calculateVoteProgress, decide_eq_true_eq]
  refine ⟨by push_cast; omega, by push_cast; omega, ?_⟩
  rintro ⟨h1, h2⟩
  push_cast at h2
  omega

/-- Witness for C9 at a concrete 2-of-3 configuration with one Yes and one
No vote recorded. -/
theorem voteProgress_conservation_exclusive_witness :
    ((calculateVoteProgress [(1, VoteType.Yes), (2, VoteType.No)]
          ⟨[1, 2, 3], 2, 0⟩).yes
        + (calculateVoteProgress [(1, VoteType.Yes), (2, VoteType.No)]
          ⟨[1, 2, 3], 2, 0⟩).no
        + (calculateVoteProgress [(1, VoteType.Yes), (2, VoteType.No)]
          ⟨[1, 2, 3], 2, 0⟩).abstain : Int)
        + (calculateVoteProgress [(1, VoteType.Yes), (2, VoteType.No)]
          ⟨[1, 2, 3], 2, 0⟩).remaining = (3 : Int) ∧
    0 ≤ (calculateVoteProgress [(1, VoteType.Yes), (2, VoteType.No)]
          ⟨[1, 2, 3], 2, 0⟩).remaining ∧
    ¬((calculateVoteProgress [(1, VoteType.Yes), (2, VoteType.No)]
          ⟨[1, 2, 3], 2, 0⟩).willPass = true ∧
      (calculateVoteProgress [(1, VoteType.Yes), (2, VoteType.No)]
          ⟨[1, 2, 3], 2, 0⟩).willFail = true) :=
  voteProgress_conservation_exclusive [(1, VoteType.Yes), (2, VoteType.No)]
    ⟨[1, 2, 3], 2, 0⟩ (by decide) (by decide)

/-- Error taxonomy of the engine, from spec section 7 and the error tables in
the documentation. -/
inductive Err
  | NotInitialized
  | InvalidOwners
  | InvalidThreshold
  | NotOwner
  | ProposalNotFound
  | VoterAlreadyVoted
  | ProposalNotPending
  | InvokeError
  | NoConfigChanges
  | NotCaller
  | InvokeNotAllowed
  | InvalidUpgrade
  | AddressNotExecutable
  | InvalidFunctionName
deriving DecidableEq

/-- Proposal kinds (spec section 3): Config carries the proposed owner list
and threshold, Invoke carries a target address, function name and arguments,
Upgrade carries a 32-byte code hash (modelled as a byte list). -/
inductive ProposalKind
  | config (owners : List Address) (threshold : Nat)
  | invoke (target : Address) (fnName : String) (args : List Nat)
  | upgrade (codeHash : List Nat)
deriving DecidableEq

/-- True exactly for Config and Upgrade proposals, the two kinds whose
execution bumps the configuration epoch. -/
def ProposalKind.isConfigOrUpgrade : ProposalKind → Bool
  | .config _ _ => true
  | .upgrade _ => true
  | .invoke _ _ _ => false

/-- Modelled from the spec: the Proposal record of spec section 3 (the
contract source is not part of this repository). `execFailed` is the recorded
execution failure of spec sections 4.4 and 7. -/
structure Proposal where
  id : Nat
  creator : Address
  kind : ProposalKind
  status : ProposalStatus
  votes : List (Address × VoteType)
  createdEpoch : Nat
  createdAt : Nat
  execFailed : Bool := false
deriving DecidableEq

/-- Modelled from the spec: the engine state of spec section 2 — the
ConfigStore record, the ProposalStore (an association list keyed by proposal
id), and the monotonic id counter. -/
structure EngineState where
  config : Config
  proposals : List (Nat × Proposal)
  nextId : Nat
deriving DecidableEq

/-- Lookup by key in an association list keyed by naturals. -/
def assocLookup {α : Type} (k : Nat) : List (Nat × α) → Option α
  | [] => none
  | q :: qs => if q.1 = k then some q.2 else assocLookup k qs

/-- Store `p` under key `pid`, replacing any previous entry for `pid`. -/
def setProposal (ps : List (Nat × Proposal)) (pid : Nat) (p : Proposal) :
    List (Nat × Proposal) :=
  (pid, p) :: ps.filter (fun q => decide (q.1 ≠ pid))

/-- Whether `owner` already has an entry in the votes map. -/
def hasVoted (owner : Address) (votes : List (Address × VoteType)) : Bool :=
  votes.any (fun q => decide (q.1 = owner))

/-- The proposal time-to-live, `WEEK_IN_LEDGERS` from
`tutorials/integration.md` (about one week of ledgers). -/
def WEEK_IN_LEDGERS : Nat := 120960

/-- Modelled from the spec: the fixed proposal TTL of spec sections 3 and 5,
equal to the documented week of platform time units. -/
def TTL : Nat := WEEK_IN_LEDGERS

/-- Modelled from the spec: `ConfigStore.replace` (spec section 4.1) —
InvalidOwners for fewer than 2 or duplicate owners, InvalidThreshold unless
`2 ≤ threshold ≤ |owners|`, NoConfigChanges when identical to the current
configuration, otherwise stores the new configuration and increments the
epoch. -/
def Config.replace (c : Config) (newOwners : List Address) (newThreshold : Nat) :
    Except Err Config :=
  if newOwners.length < 2 ∨ ¬ newOwners.Nodup then .error .InvalidOwners
  else if newThreshold < 2 ∨ newOwners.length < newThreshold then
    .error .InvalidThreshold
  else if newOwners = c.owners ∧ newThreshold = c.threshold then
    .error .NoConfigChanges
  else .ok { owners := newOwners, threshold := newThreshold, epoch := c.epoch + 1 }

/-- Modelled from the spec: proposal resolution (spec section 4.3 step 1 and
section 5) — absent proposals are ProposalNotFound; a Pending proposal past
its TTL is lazily treated as ProposalNotFound; a Pending proposal whose
creation epoch lags the current ConfigStore epoch is lazily invalid
(ProposalNotPending, as documented in `troubleshooting.md`). Proposals in a
terminal state are returned as stored. -/
def resolveProposal (s : EngineState) (pid : Nat) (now : Nat) :
    Except Err Proposal :=
  match assocLookup pid s.proposals with
  | none => .error .ProposalNotFound
  | some p =>
    if p.status = .Pending ∧ p.createdAt + TTL < now then .error .ProposalNotFound
    else if p.status = .Pending ∧ p.createdEpoch ≠ s.config.epoch then
      .error .ProposalNotPending
    else .ok p

/-- Modelled from the spec: the Executor (spec section 4.4) applied to a
just-Approved proposal. Config proposals run `ConfigStore.replace` (whose
errors surface to the caller) and become Executed; Upgrade proposals bump the
epoch and become Executed; Invoke proposals perform the external call, whose
outcome is the `extOk` parameter — success gives Executed, failure leaves the
proposal Approved with the failure recorded. -/
def applyExec (s : EngineState) (pid : Nat) (p : Proposal) (extOk : Bool) :
    Except Err (EngineState × Proposal) :=
  match p.kind with
  | .config newOwners newThreshold =>
    match s.config.replace newOwners newThreshold with
    | .error e => .error e
    | .ok c' =>
      let p' := { p with status := .Executed }
      .ok ({ s with config := c', proposals := setProposal s.proposals pid p' }, p')
  | .upgrade _ =>
    let p' := { p with status := .Executed }
    .ok ({ s with
            config := { s.config with epoch := s.config.epoch + 1 }
            proposals := setProposal s.proposals pid p' }, p')
  | .invoke _ _ _ =>
    let p' := if extOk then { p with status := .Executed }
      else { p with status := .Approved, execFailed := true }
    .ok ({ s with proposals := setProposal s.proposals pid p' }, p')

/-- Modelled from the spec: the decision step of spec section 4.3 step 5,
shared by `vote` and `invoke` — if `yes ≥ threshold` the proposal is Approved
and the Executor runs synchronously; else if `yes + remaining < threshold`
(remaining being the owners who have not voted) it is Rejected; otherwise it
stays Pending. The resulting proposal is stored. -/
def applyDecision (s : EngineState) (pid : Nat) (p : Proposal) (extOk : Bool) :
    Except Err (EngineState × Proposal) :=
  if s.config.threshold ≤ yesCount p.votes then
    applyExec s pid { p with status := .Approved } extOk
  else if yesCount p.votes + (s.config.owners.length - p.votes.length)
      < s.config.threshold then
    let p' := { p with status := .Rejected }
    .ok ({ s with proposals := setProposal s.proposals pid p' }, p')
  else
    .ok ({ s with proposals := setProposal s.proposals pid p }, p)

/-- Modelled from the spec: `vote` (spec section 4.3) — resolve the proposal,
check the voter is a current owner, the proposal Pending and the voter fresh,
then record the vote and apply the decision step. -/
def vote (s : EngineState) (owner : Address) (pid : Nat) (vt : VoteType)
    (now : Nat) (extOk : Bool) : Except Err (EngineState × Proposal) :=
  match resolveProposal s pid now with
  | .error e => .error e
  | .ok p =>
    if owner ∈ s.config.owners then
      if p.status = .Pending then
        if hasVoted owner p.votes then .error .VoterAlreadyVoted
        else applyDecision s pid { p with votes := p.votes ++ [(owner, vt)] } extOk
      else .error .ProposalNotPending
    else .error .NotOwner

/-- Modelled from the spec: `invoke` (spec section 4.3) — the caller must be
an owner and the function name non-empty; an Invoke proposal is built with
the creator's Yes vote pre-seeded, and the same decision step as `vote` runs
immediately on that single vote. -/
def invoke (s : EngineState) (caller : Address) (target : Address)
    (fnName : String) (args : List Nat) (now : Nat) (extOk : Bool) :
    Except Err (EngineState × Proposal) :=
  if caller ∈ s.config.owners then
    if fnName = "" then .error .InvalidFunctionName
    else
      let p : Proposal :=
        { id := s.nextId
          creator := caller
          kind := .invoke target fnName args
          status := .Pending
          votes := [(caller, .Yes)]
          createdEpoch := s.config.epoch
          createdAt := now }
      applyDecision { s with nextId := s.nextId + 1 } s.nextId p extOk
  else .error .NotOwner

/-- Modelled from the spec: `revoke_proposal` (spec section 4.3) — resolve,
require Pending, require the caller to be the creator (NotCaller otherwise),
then set the status to Revoked. -/
def revoke_proposal (s : EngineState) (caller : Address) (pid : Nat)
    (now : Nat) : Except Err EngineState :=
  match resolveProposal s pid now with
  | .error e => .error e
  | .ok p =>
    if p.status = .Pending then
      if caller = p.creator then
        .ok { s with proposals := setProposal s.proposals pid { p with status := .Revoked } }
      else .error .NotCaller
    else .error .ProposalNotPending

/-- Modelled from the spec: `get_proposal` (spec section 6) — resolution with
the same lazy expiry and epoch checks as `vote`. -/
def get_proposal (s : EngineState) (pid : Nat) (now : Nat) : Except Err Proposal :=
  resolveProposal s pid now

/-- A 32-byte hash is all-zero. -/
def isAllZero (h : List Nat) : Bool :=
  h.all (fun b => decide (b = 0))

/-- A 32-byte hash is all-one (every byte 0xFF). -/
def isAllOnes (h : List Nat) : Bool :=
  h.all (fun b => decide (b = 255))

/-- Modelled from the spec: the Upgrade proposal built by the
ProposalFactory (spec section 4.2) for a given creator and hash. -/
def mkUpgradeProposal (s : EngineState) (creator : Address) (codeHash : List Nat)
    (now : Nat) : Proposal :=
  { id := s.nextId
    creator := creator
    kind := .upgrade codeHash
    status := .Pending
    votes := []
    createdEpoch := s.config.epoch
    createdAt := now }

/-- Modelled from the spec: `propose_upgrade` (spec section 4.2) — the
creator must be an owner; InvalidUpgrade when the code hash is the all-zero
or all-one value; otherwise the Pending proposal enters the ProposalStore
under the next id. -/
def propose_upgrade (s : EngineState) (creator : Address) (codeHash : List Nat)
    (now : Nat) : Except Err (EngineState × Proposal) :=
  if creator ∈ s.config.owners then
    if isAllZero codeHash ∨ isAllOnes codeHash then .error .InvalidUpgrade
    else
      let p := mkUpgradeProposal s creator codeHash now
      .ok ({ s with
              nextId := s.nextId + 1
              proposals := setProposal s.proposals s.nextId p }, p)
  else .error .NotOwner

/-- Storing under `pid` makes `pid` resolve to the stored proposal. -/
theorem assocLookup_set_eq (ps : List (Nat × Proposal)) (pid : Nat)
    (p : Proposal) : assocLookup pid (setProposal ps pid p) = some p := by
  simp [setProposal, assocLookup]

/-- Unfolding equation of `assocLookup` on a cons cell. -/
theorem assocLookup_cons {α : Type} (k : Nat) (a : Nat × α) (t : List (Nat × α)) :
    assocLookup k (a :: t) = if a.1 = k then some a.2 else assocLookup k t := rfl

/-- Removing the entries keyed `pid` does not affect lookups at other keys. -/
theorem assocLookup_filter_ne (ps : List (Nat × Proposal)) (pid qid : Nat)
    (h : qid ≠ pid) :
    assocLookup qid (ps.filter (fun q => decide (q.1 ≠ pid)))
      = assocLookup qid ps := by
  induction ps with
  | nil => rfl
  | cons a t ih =>
    rw [List.filter_cons]
    by_cases ha : a.1 = pid
    · rw [if_neg (by simp [ha]), ih,
        assocLookup_cons qid a t, if_neg (by rw [ha]; exact Ne.symm h)]
    · rw [if_pos (by simp [ha]), assocLookup_cons qid a t,
        assocLookup_cons qid a, ih]

/-- Storing under `pid` does not affect lookups at other keys. -/
theorem assocLookup_set_ne (ps : List (Nat × Proposal)) (pid qid : Nat)
    (p : Proposal) (h : qid ≠ pid) :
    assocLookup qid (setProposal ps pid p) = assocLookup qid ps := by
  unfold setProposal
  rw [assocLookup_cons, if_neg (fun hc => h hc.symm)]
  exact assocLookup_filter_ne ps pid qid h

/-- A successful `replace` stores exactly the validated new configuration and
bumps the epoch. -/
theorem replace_ok (c : Config) (no : List Address) (nt : Nat) (c' : Config)
    (h : Config.replace c no nt = .ok c') :
    c'.owners = no ∧ c'.threshold = nt ∧ c'.epoch = c.epoch + 1 ∧
      2 ≤ no.length ∧ no.Nodup ∧ 2 ≤ nt ∧ nt ≤ no.length := by
  unfold Config.replace at h
  split at h
  · exact absurd h (by simp)
  case isFalse h1 =>
    split at h
    · exact absurd h (by simp)
    case isFalse h2 =>
      split at h
      · exact absurd h (by simp)
      case isFalse h3 =>
        simp only [Except.ok.injEq] at h
        subst h
        push_neg at h1 h2
        exact ⟨rfl, rfl, rfl, h1.1, h1.2, h2.1, h2.2⟩

/-- `replace` rejects an invalid owner list with InvalidOwners. -/
theorem replace_invalidOwners (c : Config) (no : List Address) (nt : Nat)
    (h : no.length < 2 ∨ ¬ no.Nodup) :
    Config.replace c no nt = .error .InvalidOwners := by
  unfold Config.replace
  rw [if_pos h]

/-- `replace` rejects an out-of-range threshold with InvalidThreshold once the
owner list is valid. -/
theorem replace_invalidThreshold (c : Config) (no : List Address) (nt : Nat)
    (hlen : 2 ≤ no.length) (hnd : no.Nodup) (h : nt < 2 ∨ no.length < nt) :
    Config.replace c no nt = .error .InvalidThreshold := by
  unfold Config.replace
  rw [if_neg (by push_neg; exact ⟨by omega, hnd⟩), if_pos h]

/-- Resolution dispatches on the stored entry: the `some` case. -/
theorem resolveProposal_eq_some (s : EngineState) (pid now : Nat)
    (p : Proposal) (hl : assocLookup pid s.proposals = some p) :
    resolveProposal s pid now =
      (if p.status = .Pending ∧ p.createdAt + TTL < now then
        .error .ProposalNotFound
      else if p.status = .Pending ∧ p.createdEpoch ≠ s.config.epoch then
        .error .ProposalNotPending
      else .ok p) := by
  unfold resolveProposal
  rw [hl]

/-- Resolution dispatches on the stored entry: the `none` case. -/
theorem resolveProposal_eq_none (s : EngineState) (pid now : Nat)
    (hl : assocLookup pid s.proposals = none) :
    resolveProposal s pid now = .error .ProposalNotFound := by
  unfold resolveProposal
  rw [hl]

/-- What a successful resolution tells us about the stored proposal. -/
theorem resolve_ok_facts (s : EngineState) (pid now : Nat) (p : Proposal)
    (h : resolveProposal s pid now = .ok p) :
    assocLookup pid s.proposals = some p ∧
    (p.status = .Pending →
      ¬ p.createdAt + TTL < now ∧ p.createdEpoch = s.config.epoch) := by
  cases hl : assocLookup pid s.proposals with
  | none => rw [resolveProposal_eq_none s pid now hl] at h; exact absurd h (by simp)
  | some q =>
    rw [resolveProposal_eq_some s pid now q hl] at h
    split at h
    · exact absurd h (by simp)
    case isFalse h1 =>
      split at h
      · exact absurd h (by simp)
      case isFalse h2 =>
        simp only [Except.ok.injEq] at h
        subst h
        refine ⟨rfl, fun hp => ⟨fun hexp => h1 ⟨hp, hexp⟩, ?_⟩⟩
        by_contra he
        exact h2 ⟨hp, he⟩

/-- A live Pending proposal resolves to itself. -/
theorem resolve_of_pending (s : EngineState) (pid now : Nat) (p : Proposal)
    (hl : assocLookup pid s.proposals = some p) (hp : p.status = .Pending)
    (hexp : ¬ p.createdAt + TTL < now) (hep : p.createdEpoch = s.config.epoch) :
    resolveProposal s pid now = .ok p := by
  rw [resolveProposal_eq_some s pid now p hl,
    if_neg (fun hc => hexp hc.2), if_neg (fun hc => hc.2 hep)]

/-- A proposal in a terminal state resolves to itself regardless of the
current time or epoch. -/
theorem resolve_of_terminal (s : EngineState) (pid now : Nat) (p : Proposal)
    (hl : assocLookup pid s.proposals = some p) (hp : p.status ≠ .Pending) :
    resolveProposal s pid now = .ok p := by
  rw [resolveProposal_eq_some s pid now p hl,
    if_neg (fun hc => hp hc.1), if_neg (fun hc => hp hc.1)]

/-- A Pending proposal past its TTL resolves to ProposalNotFound. -/
theorem resolve_expired (s : EngineState) (pid now : Nat) (p : Proposal)
    (hl : assocLookup pid s.proposals = some p) (hp : p.status = .Pending)
    (hexp : p.createdAt + TTL < now) :
    resolveProposal s pid now = .error .ProposalNotFound := by
  rw [resolveProposal_eq_some s pid now p hl, if_pos ⟨hp, hexp⟩]

/-- A live Pending proposal from a stale epoch resolves to
ProposalNotPending. -/
theorem resolve_stale (s : EngineState) (pid now : Nat) (p : Proposal)
    (hl : assocLookup pid s.proposals = some p) (hp : p.status = .Pending)
    (hexp : ¬ p.createdAt + TTL < now) (hep : p.createdEpoch ≠ s.config.epoch) :
    resolveProposal s pid now = .error .ProposalNotPending := by
  rw [resolveProposal_eq_some s pid now p hl,
    if_neg (fun hc => hexp hc.2), if_pos ⟨hp, hep⟩]

/-- A resolution error surfaces unchanged from `vote`. -/
theorem vote_resolve_error (s : EngineState) (o pid : Nat) (vt : VoteType)
    (now : Nat) (ext : Bool) (e : Err)
    (h : resolveProposal s pid now = .error e) :
    vote s o pid vt now ext = .error e := by
  unfold vote
  rw [h]

/-- A resolution error surfaces unchanged from `revoke_proposal`. -/
theorem revoke_resolve_error (s : EngineState) (c pid now : Nat) (e : Err)
    (h : resolveProposal s pid now = .error e) :
    revoke_proposal s c pid now = .error e := by
  unfold revoke_proposal
  rw [h]

/-- `vote` dispatches on a successful resolution. -/
theorem vote_eq_of_resolve_ok (s : EngineState) (o pid : Nat) (vt : VoteType)
    (now : Nat) (ext : Bool) (p0 : Proposal)
    (hr : resolveProposal s pid now = .ok p0) :
    vote s o pid vt now ext =
      (if o ∈ s.config.owners then
        if p0.status = .Pending then
          if hasVoted o p0.votes then .error .VoterAlreadyVoted
          else applyDecision s pid { p0 with votes := p0.votes ++ [(o, vt)] } ext
        else .error .ProposalNotPending
      else .error .NotOwner) := by
  unfold vote
  rw [hr]

/-- `revoke_proposal` dispatches on a successful resolution. -/
theorem revoke_eq_of_resolve_ok (s : EngineState) (c pid now : Nat)
    (p0 : Proposal) (hr : resolveProposal s pid now = .ok p0) :
    revoke_proposal s c pid now =
      (if p0.status = .Pending then
        if c = p0.creator then
          .ok { s with
                proposals := setProposal s.proposals pid
                  { p0 with status := .Revoked } }
        else .error .NotCaller
      else .error .ProposalNotPending) := by
  unfold revoke_proposal
  rw [hr]

/-- Case analysis of a successful Executor run: the proposal keeps its data,
ends Executed (or Approved with a recorded failure, only for a failed
external call of an Invoke proposal), is stored under its key, and a
Config/Upgrade execution bumps the epoch by one. -/
theorem applyExec_ok (s : EngineState) (pid : Nat) (q : Proposal)
    (extOk : Bool) (s' : EngineState) (p : Proposal)
    (h : applyExec s pid q extOk = .ok (s', p)) :
    p.votes = q.votes ∧ p.kind = q.kind ∧ p.id = q.id ∧ p.creator = q.creator ∧
    s'.proposals = setProposal s.proposals pid p ∧ s'.nextId = s.nextId ∧
    (p.status = .Executed ∨
      (p.status = .Approved ∧ p.execFailed = true ∧
        q.kind.isConfigOrUpgrade = false ∧ extOk = false)) ∧
    (q.kind.isConfigOrUpgrade = true → s'.config.epoch = s.config.epoch + 1) ∧
    (q.kind.isConfigOrUpgrade = false →
      (extOk = true → p.status = .Executed) ∧
      (extOk = false → p.status = .Approved ∧ p.execFailed = true)) := by
  unfold applyExec at h
  split at h
  next no nt hk =>
    cases hr : Config.replace s.config no nt with
    | error e =>
      rw [hr] at h
      exact absurd h (by simp)
    | ok c' =>
      rw [hr] at h
      simp only [Except.ok.injEq, Prod.mk.injEq] at h
      obtain ⟨hs, hp⟩ := h
      subst hs; subst hp
      have hre := replace_ok s.config no nt c' hr
      exact ⟨rfl, rfl, rfl, rfl, rfl, rfl, Or.inl rfl, fun _ => hre.2.2.1,
        by simp [hk, ProposalKind.isConfigOrUpgrade]⟩
  next hsh hk =>
    simp only [Except.ok.injEq, Prod.mk.injEq] at h
    obtain ⟨hs, hp⟩ := h
    subst hs; subst hp
    exact ⟨rfl, rfl, rfl, rfl, rfl, rfl, Or.inl rfl, fun _ => rfl,
      by simp [hk, ProposalKind.isConfigOrUpgrade]⟩
  next t f a hk =>
    cases extOk with
    | true =>
      simp only [if_pos] at h
      simp only [Except.ok.injEq, Prod.mk.injEq] at h
      obtain ⟨hs, hp⟩ := h
      subst hs; subst hp
      exact ⟨rfl, rfl, rfl, rfl, rfl, rfl, Or.inl rfl,
        by simp [hk, ProposalKind.isConfigOrUpgrade],
        fun _ => ⟨fun _ => rfl, by simp⟩⟩
    | false =>
      simp only [Bool.false_eq_true, if_false] at h
      simp only [Except.ok.injEq, Prod.mk.injEq] at h
      obtain ⟨hs, hp⟩ := h
      subst hs; subst hp
      exact ⟨rfl, rfl, rfl, rfl, rfl, rfl,
        Or.inr ⟨rfl, rfl, by simp [hk, ProposalKind.isConfigOrUpgrade], rfl⟩,
        by simp [hk, ProposalKind.isConfigOrUpgrade],
        fun _ => ⟨by simp, fun _ => ⟨rfl, rfl⟩⟩⟩

/-- Case analysis of a successful decision step: the proposal keeps its data
and is stored; when `yes ≥ threshold` the Executor facts of `applyExec_ok`
hold; otherwise the configuration is untouched and the proposal is Rejected
exactly when `yes + remaining < threshold`, else returned Pending as is. -/
theorem applyDecision_ok (s : EngineState) (pid : Nat) (q : Proposal)
    (extOk : Bool) (s' : EngineState) (p : Proposal)
    (h : applyDecision s pid q extOk = .ok (s', p)) :
    p.votes = q.votes ∧ p.kind = q.kind ∧ p.id = q.id ∧ p.creator = q.creator ∧
    s'.proposals = setProposal s.proposals pid p ∧ s'.nextId = s.nextId ∧
    (s.config.threshold ≤ yesCount q.votes →
      ((p.status = .Executed ∨
         (p.status = .Approved ∧ p.execFailed = true ∧
           q.kind.isConfigOrUpgrade = false ∧ extOk = false)) ∧
       (q.kind.isConfigOrUpgrade = true →
         s'.config.epoch = s.config.epoch + 1) ∧
       (q.kind.isConfigOrUpgrade = false →
         (extOk = true → p.status = .Executed) ∧
         (extOk = false → p.status = .Approved ∧ p.execFailed = true)))) ∧
    (¬ s.config.threshold ≤ yesCount q.votes →
      (s'.config = s.config ∧
       (yesCount q.votes + (s.config.owners.length - q.votes.length)
            < s.config.threshold → p = { q with status := .Rejected }) ∧
       (¬ (yesCount q.votes + (s.config.owners.length - q.votes.length)
            < s.config.threshold) → p = q))) := by
  unfold applyDecision at h
  split at h
  case isTrue hge =>
    have hae := applyExec_ok s pid { q with status := .Approved } extOk s' p h
    exact ⟨hae.1, hae.2.1, hae.2.2.1, hae.2.2.2.1, hae.2.2.2.2.1,
      hae.2.2.2.2.2.1,
      fun _ => ⟨hae.2.2.2.2.2.2.1, hae.2.2.2.2.2.2.2.1,
        hae.2.2.2.2.2.2.2.2⟩,
      fun hc => absurd hge hc⟩
  case isFalse hlt =>
    split at h
    case isTrue hrej =>
      simp only [Except.ok.injEq, Prod.mk.injEq] at h
      obtain ⟨hs, hp⟩ := h
      subst hs; subst hp
      exact ⟨rfl, rfl, rfl, rfl, rfl, rfl, fun hc => absurd hc hlt,
        fun _ => ⟨rfl, fun _ => rfl, fun hc => absurd hrej hc⟩⟩
    case isFalse hrej =>
      simp only [Except.ok.injEq, Prod.mk.injEq] at h
      obtain ⟨hs, hp⟩ := h
      subst hs; subst hp
      exact ⟨rfl, rfl, rfl, rfl, rfl, rfl, fun hc => absurd hc hlt,
        fun _ => ⟨rfl, fun hc => absurd hc hrej, fun _ => rfl⟩⟩

/-- Shape of a successful `vote`: the proposal resolved, the voter is a
fresh current owner, the proposal was Pending, and the decision step ran on
the votes map extended by the new vote. -/
theorem vote_ok_shape (s : EngineState) (o pid : Nat) (vt : VoteType)
    (now : Nat) (ext : Bool) (s' : EngineState) (p : Proposal)
    (h : vote s o pid vt now ext = .ok (s', p)) :
    ∃ p0, resolveProposal s pid now = .ok p0 ∧ o ∈ s.config.owners ∧
      p0.status = .Pending ∧ hasVoted o p0.votes = false ∧
      applyDecision s pid { p0 with votes := p0.votes ++ [(o, vt)] } ext
        = .ok (s', p) := by
  cases hr : resolveProposal s pid now with
  | error e => rw [vote_resolve_error s o pid vt now ext e hr] at h
               exact absurd h (by simp)
  | ok p0 =>
    rw [vote_eq_of_resolve_ok s o pid vt now ext p0 hr] at h
    split at h
    case isTrue hmem =>
      split at h
      case isTrue hp =>
        split at h
        case isTrue hvd => exact absurd h (by simp)
        case isFalse hvd =>
          exact ⟨p0, rfl, hmem, hp, by simpa using hvd, h⟩
      case isFalse hp => exact absurd h (by simp)
    case isFalse hmem => exact absurd h (by simp)

/-- C1: Once a recorded vote brings the Yes count to the threshold, the
proposal does not stay Pending: the same voting step runs the Executor, and
the status returned to the caller is Executed, or Approved with a recorded
execution failure exactly when the external call of an Invoke proposal
failed. -/
theorem vote_threshold_reached_executes (s : EngineState) (owner pid : Nat)
    (vt : VoteType) (now : Nat) (extOk : Bool) (s' : EngineState)
    (p : Proposal) (h : vote s owner pid vt now extOk = .ok (s', p))
    (hy : s.config.threshold ≤ yesCount p.votes) :
    p.status ≠ .Pending ∧
    (p.status = .Executed ∨
      (p.status = .Approved ∧ p.execFailed = true ∧
        p.kind.isConfigOrUpgrade = false ∧ extOk = false)) := by
  obtain ⟨p0, hr, hmem, hp, hfresh, had⟩ :=
    vote_ok_shape s owner pid vt now extOk s' p h
  have hfacts := applyDecision_ok s pid _ extOk s' p had
  rw [hfacts.1] at hy
  have hmain := hfacts.2.2.2.2.2.2.1 hy
  rcases hmain.1 with hex | ⟨ha, hf, hcu, hext⟩
  · exact ⟨by simp [hex], Or.inl hex⟩
  · refine ⟨by simp [ha], Or.inr ⟨ha, hf, ?_, hext⟩⟩
    rw [hfacts.2.1]
    exact hcu

/-- Concrete state for the C1 witness: 2-of-2 owners, id 5 is a Pending
Upgrade proposal that already holds one Yes vote. -/
def st1 : EngineState :=
  { config := { owners := [1, 2], threshold := 2, epoch := 0 }
    proposals := [(5,
      { id := 5, creator := 1, kind := .upgrade [7], status := .Pending,
        votes := [(1, .Yes)], createdEpoch := 0, createdAt := 0 })]
    nextId := 6 }

/-- The proposal of `st1` after owner 2 casts the second Yes vote. -/
def prop5e : Proposal :=
  { id := 5, creator := 1, kind := .upgrade [7], status := .Executed,
    votes := [(1, .Yes), (2, .Yes)], createdEpoch := 0, createdAt := 0 }

/-- The state of `st1` after owner 2 casts the second Yes vote. -/
def st1e : EngineState :=
  { config := { owners := [1, 2], threshold := 2, epoch := 1 }
    proposals := [(5, prop5e)]
    nextId := 6 }

/-- Witness for C1: in `st1`, owner 2 voting Yes reaches the threshold and
the returned proposal is Executed. -/
theorem vote_threshold_reached_executes_witness :
    prop5e.status ≠ ProposalStatus.Pending ∧
    (prop5e.status = .Executed ∨
      (prop5e.status = .Approved ∧ prop5e.execFailed = true ∧
        prop5e.kind.isConfigOrUpgrade = false ∧ true = false)) :=
  vote_threshold_reached_executes st1 2 5 .Yes 0 true st1e prop5e
    (by decide) (by decide)

/-- C2: Rejection soundness. Arithmetic part: once
`yes + remaining < threshold` holds for a votes map whose keys are distinct
owners, no extension of that map by further owner votes reaches
`yes ≥ threshold` (each new vote takes one remaining voter and adds at most
one Yes). Engine part: a successful `vote` for which the recorded votes
satisfy `yes + remaining < threshold` returns the proposal Rejected. -/
theorem rejection_soundness (cfg : Config) (V W : List (Address × VoteType))
    (hnd : ((V ++ W).map Prod.fst).Nodup)
    (hsub : ∀ a ∈ (V ++ W).map Prod.fst, a ∈ cfg.owners)
    (hlow : yesCount V + (cfg.owners.length - V.length) < cfg.threshold)
    (s : EngineState) (owner pid : Nat) (vt : VoteType) (now : Nat)
    (extOk : Bool) (s' : EngineState) (p : Proposal)
    (hv : vote s owner pid vt now extOk = .ok (s', p))
    (hc : yesCount p.votes + (s.config.owners.length - p.votes.length)
        < s.config.threshold) :
    yesCount (V ++ W) < cfg.threshold ∧ p.status = .Rejected := by
  constructor
  · have hyw : yesCount (V ++ W) = yesCount V + yesCount W := by
      simp [yesCount, List.countP_append]
    have hWle : yesCount W ≤ W.length := List.countP_le_length _
    have hlen := votes_length_le_owners (V ++ W) cfg.owners hnd hsub
    rw [List.length_append] at hlen
    omega
  · obtain ⟨p0, hr, hmem, hp, hfresh, had⟩ :=
      vote_ok_shape s owner pid vt now extOk s' p hv
    have hfacts := applyDecision_ok s pid _ extOk s' p had
    rw [hfacts.1] at hc
    by_cases hge : s.config.threshold
        ≤ yesCount ({ p0 with votes := p0.votes ++ [(owner, vt)] } : Proposal).votes
    · omega
    · have hrej := (hfacts.2.2.2.2.2.2.2 hge).2.1 hc
      rw [hrej]

/-- Concrete state for the C2 witness: 2-of-3 owners, id 7 is a Pending
Invoke proposal that already holds one No vote. -/
def st2 : EngineState :=
  { config := { owners := [1, 2, 3], threshold := 2, epoch := 0 }
    proposals := [(7,
      { id := 7, creator := 1, kind := .invoke 9 "transfer" [],
        status := .Pending, votes := [(1, .No)], createdEpoch := 0,
        createdAt := 0 })]
    nextId := 8 }

/-- The proposal of `st2` after owner 2 casts the second No vote. -/
def prop7r : Proposal :=
  { id := 7, creator := 1, kind := .invoke 9 "transfer" [],
    status := .Rejected, votes := [(1, .No), (2, .No)], createdEpoch := 0,
    createdAt := 0 }

/-- The state of `st2` after owner 2 casts the second No vote. -/
def st2r : EngineState :=
  { config := { owners := [1, 2, 3], threshold := 2, epoch := 0 }
    proposals := [(7, prop7r)]
    nextId := 8 }

/-- Witness for C2: two No votes out of three owners with threshold 2 make
approval impossible and the engine returns the proposal Rejected. -/
theorem rejection_soundness_witness :
    yesCount ([(1, VoteType.No), (2, VoteType.No)] ++ [(3, VoteType.Yes)])
      < (Config.mk [1, 2, 3] 2 0).threshold ∧
    prop7r.status = .Rejected :=
  rejection_soundness (Config.mk [1, 2, 3] 2 0)
    [(1, VoteType.No), (2, VoteType.No)] [(3, VoteType.Yes)]
    (by decide) (by decide) (by decide)
    st2 2 7 .No 0 true st2r prop7r (by decide) (by decide)

/-- C3: Configuration validity. A successful `replace` always stores a
configuration with at least two distinct owners and a threshold between 2
and the owner count; an owner list with fewer than two entries or duplicates
is rejected with InvalidOwners; a valid owner list with a threshold outside
`[2, |owners|]` is rejected with InvalidThreshold. `replace` is pure, so a
rejection leaves the stored configuration untouched. -/
theorem replace_config_validity (c : Config) (newOwners : List Address)
    (newThreshold : Nat) :
    (∀ c', Config.replace c newOwners newThreshold = .ok c' →
      2 ≤ c'.owners.length ∧ c'.owners.Nodup ∧ 2 ≤ c'.threshold ∧
        c'.threshold ≤ c'.owners.length) ∧
    (newOwners.length < 2 ∨ ¬ newOwners.Nodup →
      Config.replace c newOwners newThreshold = .error .InvalidOwners) ∧
    (2 ≤ newOwners.length → newOwners.Nodup →
      newThreshold < 2 ∨ newOwners.length < newThreshold →
      Config.replace c newOwners newThreshold = .error .InvalidThreshold) := by
  refine ⟨?_, ?_, ?_⟩
  · intro c' hc'
    have hre := replace_ok c newOwners newThreshold c' hc'
    exact ⟨by rw [hre.1]; exact hre.2.2.2.1,
      by rw [hre.1]; exact hre.2.2.2.2.1,
      by rw [hre.2.1]; exact hre.2.2.2.2.2.1,
      by rw [hre.2.1, hre.1]; exact hre.2.2.2.2.2.2⟩
  · exact replace_invalidOwners c newOwners newThreshold
  · exact fun h1 h2 h3 => replace_invalidThreshold c newOwners newThreshold h1 h2 h3

/-- Witness for C3: a successful replace yields a valid configuration, a
duplicate owner list fails InvalidOwners, and an oversized threshold fails
InvalidThreshold. -/
theorem replace_config_validity_witness :
    (2 ≤ (Config.mk [1, 2, 3] 2 1).owners.length ∧
      (Config.mk [1, 2, 3] 2 1).owners.Nodup ∧
      2 ≤ (Config.mk [1, 2, 3] 2 1).threshold ∧
      (Config.mk [1, 2, 3] 2 1).threshold
        ≤ (Config.mk [1, 2, 3] 2 1).owners.length) ∧
    Config.replace (Config.mk [1, 2] 2 0) [1, 1] 2 = .error .InvalidOwners ∧
    Config.replace (Config.mk [1, 2] 2 0) [1, 2, 3] 7
      = .error .InvalidThreshold :=
  ⟨(replace_config_validity (Config.mk [1, 2] 2 0) [1, 2, 3] 2).1
      (Config.mk [1, 2, 3] 2 1) (by decide),
   (replace_config_validity (Config.mk [1, 2] 2 0) [1, 1] 2).2.1
      (Or.inr (by decide)),
   (replace_config_validity (Config.mk [1, 2] 2 0) [1, 2, 3] 7).2.2
      (by decide) (by decide) (Or.inr (by decide))⟩

/-- A stored Pending proposal from a stale epoch is inaccessible through each
of the three accessors, at every access time: either expired
(ProposalNotFound) or epoch-invalidated (ProposalNotPending). -/
theorem stale_pending_inaccessible (S : EngineState) (qid : Nat) (q : Proposal)
    (hq : assocLookup qid S.proposals = some q) (hqp : q.status = .Pending)
    (hqe : q.createdEpoch ≠ S.config.epoch) :
    ∀ now', (get_proposal S qid now' = .error .ProposalNotPending ∨
        get_proposal S qid now' = .error .ProposalNotFound) ∧
      (∀ o' vt' ext', vote S o' qid vt' now' ext' = .error .ProposalNotPending ∨
        vote S o' qid vt' now' ext' = .error .ProposalNotFound) ∧
      (∀ c', revoke_proposal S c' qid now' = .error .ProposalNotPending ∨
        revoke_proposal S c' qid now' = .error .ProposalNotFound) := by
  intro now'
  by_cases hexp : q.createdAt + TTL < now'
  · have hres := resolve_expired S qid now' q hq hqp hexp
    exact ⟨Or.inr hres,
      fun o' vt' ext' =>
        Or.inr (vote_resolve_error S o' qid vt' now' ext' _ hres),
      fun c' => Or.inr (revoke_resolve_error S c' qid now' _ hres)⟩
  · have hres := resolve_stale S qid now' q hq hqp hexp hqe
    exact ⟨Or.inl hres,
      fun o' vt' ext' =>
        Or.inl (vote_resolve_error S o' qid vt' now' ext' _ hres),
      fun c' => Or.inl (revoke_resolve_error S c' qid now' _ hres)⟩

/-- C4: Epoch invalidation. When a vote executes a Config or Upgrade
proposal, every other stored Pending proposal from the old epoch is left
untouched in the store (lazy invalidation, no eager rewrite), yet every
subsequent access to it — get_proposal, vote, revoke_proposal — fails with
ProposalNotPending or ProposalNotFound. -/
theorem epoch_invalidation (s : EngineState) (owner pid : Nat) (vt : VoteType)
    (now : Nat) (extOk : Bool) (s' : EngineState) (p : Proposal)
    (hv : vote s owner pid vt now extOk = .ok (s', p))
    (hk : p.kind.isConfigOrUpgrade = true) (hx : p.status = .Executed)
    (qid : Nat) (q : Proposal) (hq : assocLookup qid s.proposals = some q)
    (hne : qid ≠ pid) (hqp : q.status = .Pending)
    (hqe : q.createdEpoch ≤ s.config.epoch) :
    assocLookup qid s'.proposals = some q ∧
    (∀ now', get_proposal s' qid now' = .error .ProposalNotPending ∨
      get_proposal s' qid now' = .error .ProposalNotFound) ∧
    (∀ now' o' vt' ext',
      vote s' o' qid vt' now' ext' = .error .ProposalNotPending ∨
      vote s' o' qid vt' now' ext' = .error .ProposalNotFound) ∧
    (∀ now' c', revoke_proposal s' c' qid now' = .error .ProposalNotPending ∨
      revoke_proposal s' c' qid now' = .error .ProposalNotFound) := by
  obtain ⟨p0, hr, hmem, hp0, hfresh, had⟩ :=
    vote_ok_shape s owner pid vt now extOk s' p hv
  have hfacts := applyDecision_ok s pid _ extOk s' p had
  have hge : s.config.threshold
      ≤ yesCount ({ p0 with votes := p0.votes ++ [(owner, vt)] } : Proposal).votes := by
    by_contra hlt
    have hrest := hfacts.2.2.2.2.2.2.2 hlt
    by_cases hrej : yesCount ({ p0 with votes := p0.votes ++ [(owner, vt)] } : Proposal).votes
        + (s.config.owners.length
          - ({ p0 with votes := p0.votes ++ [(owner, vt)] } : Proposal).votes.length)
        < s.config.threshold
    · have hpr := hrest.2.1 hrej
      rw [hpr] at hx
      exact absurd hx (by simp)
    · have hpr := hrest.2.2 hrej
      rw [hpr] at hx
      simp only at hx
      rw [hp0] at hx
      exact absurd hx (by simp)
  have hclause := hfacts.2.2.2.2.2.2.1 hge
  rw [hfacts.2.1] at hk
  have hep := hclause.2.1 hk
  have hstore := hfacts.2.2.2.2.1
  have hlook : assocLookup qid s'.proposals = some q := by
    rw [hstore, assocLookup_set_ne s.proposals pid qid p hne]
    exact hq
  have hqe' : q.createdEpoch ≠ s'.config.epoch := by omega
  have hall := stale_pending_inaccessible s' qid q hlook hqp hqe'
  exact ⟨hlook, fun now' => (hall now').1,
    fun now' o' vt' ext' => (hall now').2.1 o' vt' ext',
    fun now' c' => (hall now').2.2 c'⟩

/-- The bystander Pending proposal of the C4 witness. -/
def st4q6 : Proposal :=
  { id := 6, creator := 2, kind := .upgrade [9], status := .Pending,
    votes := [], createdEpoch := 0, createdAt := 0 }

/-- Concrete state for the C4 witness: 2-of-2 owners; id 5 is a Pending
Config proposal (adding owner 3) with one Yes vote; id 6 is another Pending
proposal. -/
def st4 : EngineState :=
  { config := { owners := [1, 2], threshold := 2, epoch := 0 }
    proposals := [(5,
      { id := 5, creator := 1, kind := .config [1, 2, 3] 2,
        status := .Pending, votes := [(1, .Yes)], createdEpoch := 0,
        createdAt := 0 }),
      (6, st4q6)]
    nextId := 7 }

/-- The Config proposal of `st4` after execution. -/
def prop5x : Proposal :=
  { id := 5, creator := 1, kind := .config [1, 2, 3] 2, status := .Executed,
    votes := [(1, .Yes), (2, .Yes)], createdEpoch := 0, createdAt := 0 }

/-- The state of `st4` after owner 2's Yes vote executes the Config
proposal: new owner set, epoch 1, proposal 6 untouched. -/
def st4x : EngineState :=
  { config := { owners := [1, 2, 3], threshold := 2, epoch := 1 }
    proposals := [(5, prop5x), (6, st4q6)]
    nextId := 7 }

/-- Witness for C4: after the Config proposal executes, proposal 6 is stored
unchanged but inaccessible to get_proposal, vote and revoke_proposal. -/
theorem epoch_invalidation_witness :
    assocLookup 6 st4x.proposals = some st4q6 ∧
    (get_proposal st4x 6 0 = .error .ProposalNotPending ∨
      get_proposal st4x 6 0 = .error .ProposalNotFound) ∧
    (vote st4x 1 6 .Yes 0 true = .error .ProposalNotPending ∨
      vote st4x 1 6 .Yes 0 true = .error .ProposalNotFound) ∧
    (revoke_proposal st4x 2 6 0 = .error .ProposalNotPending ∨
      revoke_proposal st4x 2 6 0 = .error .ProposalNotFound) := by
  have h := epoch_invalidation st4 2 5 .Yes 0 true st4x prop5x
    (by decide) (by decide) (by decide) 6 st4q6 (by decide) (by decide)
    (by decide) (by decide)
  exact ⟨h.1, h.2.1 0, h.2.2.1 0 1 .Yes true, h.2.2.2 0 2⟩

/-- C5: Invoke auto-vote. A successful `invoke` creates an Invoke-kind
proposal whose votes map already holds exactly the creator's Yes vote (one
Yes vote, so `threshold - 1` further Yes votes reach the threshold), stores
it under the next id, and runs the standard decision step at once: with a
threshold met by the single auto-vote the external call executes
immediately, otherwise (threshold at least 2, attainable by the owner set)
the proposal is left Pending. -/
theorem invoke_autovote (s : EngineState) (caller target : Nat) (fn : String)
    (args : List Nat) (now : Nat) (extOk : Bool) (s' : EngineState)
    (p : Proposal) (h : invoke s caller target fn args now extOk = .ok (s', p))
    (ht : s.config.threshold ≤ s.config.owners.length) :
    p.kind = .invoke target fn args ∧ p.creator = caller ∧
    p.votes = [(caller, VoteType.Yes)] ∧ yesCount p.votes = 1 ∧
    assocLookup s.nextId s'.proposals = some p ∧
    (s.config.threshold ≤ 1 →
      (extOk = true → p.status = .Executed) ∧
      (extOk = false → p.status = .Approved ∧ p.execFailed = true)) ∧
    (2 ≤ s.config.threshold → p.status = .Pending) := by
  unfold invoke at h
  split at h
  case isFalse => exact absurd h (by simp)
  case isTrue hmem =>
    split at h
    case isTrue => exact absurd h (by simp)
    case isFalse hfn =>
      have hfacts := applyDecision_ok _ s.nextId _ extOk s' p h
      have hN : 0 < s.config.owners.length :=
        List.length_pos.mpr (List.ne_nil_of_mem hmem)
      refine ⟨hfacts.2.1, hfacts.2.2.2.1, hfacts.1, ?_, ?_, ?_, ?_⟩
      · rw [hfacts.1]
        rfl
      · rw [hfacts.2.2.2.2.1]
        exact assocLookup_set_eq _ s.nextId p
      · intro h1
        exact (hfacts.2.2.2.2.2.2.1 h1).2.2 rfl
      · intro h2
        have hpend := (hfacts.2.2.2.2.2.2.2 (fun hc => by
            have hc' : s.config.threshold ≤ 1 := hc
            omega)).2.2 (fun hc => by
          have hc' : 1 + (s.config.owners.length - 1) < s.config.threshold := hc
          omega)
        rw [hpend]

/-- Concrete state for the C5 witness: 2-of-3 owners, empty proposal
store. -/
def st5 : EngineState :=
  { config := { owners := [1, 2, 3], threshold := 2, epoch := 0 }
    proposals := []
    nextId := 0 }

/-- The Invoke proposal created by owner 1 in `st5`. -/
def prop0i : Proposal :=
  { id := 0, creator := 1, kind := .invoke 9 "transfer" [],
    status := .Pending, votes := [(1, .Yes)], createdEpoch := 0,
    createdAt := 0 }

/-- The state of `st5` after owner 1 calls invoke. -/
def st5i : EngineState :=
  { config := { owners := [1, 2, 3], threshold := 2, epoch := 0 }
    proposals := [(0, prop0i)]
    nextId := 1 }

/-- Witness for C5: owner 1's invoke in a 2-of-3 configuration creates an
Invoke proposal pre-seeded with one Yes vote and leaves it Pending. -/
theorem invoke_autovote_witness :
    prop0i.kind = .invoke 9 "transfer" [] ∧ prop0i.creator = 1 ∧
    prop0i.votes = [(1, VoteType.Yes)] ∧ yesCount prop0i.votes = 1 ∧
    assocLookup st5.nextId st5i.proposals = some prop0i ∧
    (st5.config.threshold ≤ 1 →
      (true = true → prop0i.status = .Executed) ∧
      (true = false → prop0i.status = .Approved ∧ prop0i.execFailed = true)) ∧
    (2 ≤ st5.config.threshold → prop0i.status = .Pending) :=
  invoke_autovote st5 1 9 "transfer" [] 0 true st5i prop0i
    (by decide) (by decide)

/-- The engine state after a proposal is stored back as Revoked. -/
def revokedState (s : EngineState) (pid : Nat) (p : Proposal) : EngineState :=
  { s with
      proposals := setProposal s.proposals pid { p with status := .Revoked } }

/-- C6: Revoke authorization and single use. For a resolvable Pending
proposal, revoke_proposal by a non-creator fails with NotCaller (the
operation is pure, so the store is unchanged); by the creator it succeeds,
storing the proposal as Revoked, after which any further revoke_proposal on
the same id fails with ProposalNotPending at every time and for every
caller. -/
theorem revoke_creator_only (s : EngineState) (pid : Nat) (p : Proposal)
    (now : Nat) (caller : Address)
    (hres : resolveProposal s pid now = .ok p) (hp : p.status = .Pending) :
    (caller ≠ p.creator →
      revoke_proposal s caller pid now = .error .NotCaller) ∧
    (caller = p.creator →
      revoke_proposal s caller pid now = .ok (revokedState s pid p) ∧
      ∀ now' c', revoke_proposal (revokedState s pid p) c' pid now'
          = .error .ProposalNotPending) := by
  constructor
  · intro hne
    rw [revoke_eq_of_resolve_ok s caller pid now p hres, if_pos hp,
      if_neg hne]
  · intro heq
    constructor
    · rw [revoke_eq_of_resolve_ok s caller pid now p hres, if_pos hp,
        if_pos heq]
      rfl
    · intro now' c'
      have hl : assocLookup pid (revokedState s pid p).proposals
          = some { p with status := .Revoked } :=
        assocLookup_set_eq s.proposals pid _
      have hres' := resolve_of_terminal _ pid now' _ hl (by simp)
      rw [revoke_eq_of_resolve_ok _ c' pid now' _ hres', if_neg (by simp)]

/-- A Pending proposal created by owner 1 at time 0, used by the C6 and C8
witnesses. -/
def prop3p : Proposal :=
  { id := 3, creator := 1, kind := .upgrade [7], status := .Pending,
    votes := [], createdEpoch := 0, createdAt := 0 }

/-- Concrete state for the C6 witness: proposal 3 is Pending, created by
owner 1. -/
def st6 : EngineState :=
  { config := { owners := [1, 2], threshold := 2, epoch := 0 }
    proposals := [(3, prop3p)]
    nextId := 4 }

/-- Witness for C6: owner 2 cannot revoke proposal 3; creator 1 can, exactly
once. -/
theorem revoke_creator_only_witness :
    revoke_proposal st6 2 3 0 = .error .NotCaller ∧
    revoke_proposal st6 1 3 0 = .ok (revokedState st6 3 prop3p) ∧
    revoke_proposal (revokedState st6 3 prop3p) 1 3 1
      = .error .ProposalNotPending := by
  have h2 := revoke_creator_only st6 3 prop3p 0 2 (by decide) (by decide)
  have h1 := revoke_creator_only st6 3 prop3p 0 1 (by decide) (by decide)
  exact ⟨h2.1 (by decide), (h1.2 rfl).1, (h1.2 rfl).2 1 1⟩

/-- C7: Upgrade hash validation. With an owner creator and a 32-byte hash,
propose_upgrade fails with InvalidUpgrade exactly when the hash is all-zero
or all-one; every other hash is accepted and the new Pending proposal enters
the ProposalStore (a rejected hash produces only an error, so nothing is
stored). -/
theorem upgrade_hash_validation (s : EngineState) (creator : Address)
    (h : List Nat) (now : Nat) (hown : creator ∈ s.config.owners)
    (hlen : h.length = 32) :
    (propose_upgrade s creator h now = .error .InvalidUpgrade ↔
      (isAllZero h = true ∨ isAllOnes h = true)) ∧
    (isAllZero h = false → isAllOnes h = false →
      propose_upgrade s creator h now =
        .ok ({ s with
                nextId := s.nextId + 1
                proposals := setProposal s.proposals s.nextId
                  (mkUpgradeProposal s creator h now) },
             mkUpgradeProposal s creator h now)) := by
  unfold propose_upgrade
  rw [if_pos hown]
  constructor
  · constructor
    · intro heq
      by_contra hbad
      push_neg at hbad
      rw [if_neg (by simp [hbad.1, hbad.2])] at heq
      exact absurd heq (by simp)
    · intro hor
      rw [if_pos hor]
  · intro hz ho
    rw [if_neg (by simp [hz, ho])]

/-- Concrete state for the C7 witness. -/
def st7 : EngineState :=
  { config := { owners := [1, 2], threshold := 2, epoch := 0 }
    proposals := []
    nextId := 0 }

/-- Witness for C7: the all-zero 32-byte hash is rejected with
InvalidUpgrade; a nonzero hash is accepted and stored. -/
theorem upgrade_hash_validation_witness :
    propose_upgrade st7 1 (List.replicate 32 0) 0
      = .error .InvalidUpgrade ∧
    propose_upgrade st7 1 (List.replicate 32 7) 0 =
      .ok ({ st7 with
              nextId := st7.nextId + 1
              proposals := setProposal st7.proposals st7.nextId
                (mkUpgradeProposal st7 1 (List.replicate 32 7) 0) },
           mkUpgradeProposal st7 1 (List.replicate 32 7) 0) :=
  ⟨(upgrade_hash_validation st7 1 (List.replicate 32 0) 0 (by decide)
      (by decide)).1.mpr (Or.inl (by decide)),
   (upgrade_hash_validation st7 1 (List.replicate 32 7) 0 (by decide)
      (by decide)).2 (by decide) (by decide)⟩

/-- C8: Proposal expiry. A stored Pending proposal accessed strictly later
than `created_at + TTL` is treated as not found by get_proposal, vote and
revoke_proposal — a passive check at access time, never a sweep (all three
operations are pure and an expired access returns only an error) — while a
proposal in a terminal state is not subject to expiry: get_proposal returns
it at any time. -/
theorem proposal_expiry (s : EngineState) (pid : Nat) (p : Proposal)
    (now : Nat) (o c : Address) (vt : VoteType) (extOk : Bool)
    (hq : assocLookup pid s.proposals = some p) :
    (p.status = .Pending → p.createdAt + TTL < now →
      get_proposal s pid now = .error .ProposalNotFound ∧
      vote s o pid vt now extOk = .error .ProposalNotFound ∧
      revoke_proposal s c pid now = .error .ProposalNotFound) ∧
    (p.status ≠ .Pending → get_proposal s pid now = .ok p) := by
  constructor
  · intro hp hexp
    have hres := resolve_expired s pid now p hq hp hexp
    exact ⟨hres, vote_resolve_error s o pid vt now extOk _ hres,
      revoke_resolve_error s c pid now _ hres⟩
  · intro hp
    exact resolve_of_terminal s pid now p hq hp

/-- An Executed proposal used by the C8 witness. -/
def prop4x : Proposal :=
  { id := 4, creator := 1, kind := .upgrade [7], status := .Executed,
    votes := [(1, .Yes), (2, .Yes)], createdEpoch := 0, createdAt := 0 }

/-- Concrete state for the C8 witness: proposal 3 is Pending (created at
time 0), proposal 4 is Executed. -/
def st8 : EngineState :=
  { config := { owners := [1, 2], threshold := 2, epoch := 0 }
    proposals := [(3, prop3p), (4, prop4x)]
    nextId := 9 }

/-- Witness for C8: one ledger past the TTL, the Pending proposal 3 is not
found by any accessor, while the Executed proposal 4 is still returned far
later. -/
theorem proposal_expiry_witness :
    (get_proposal st8 3 120961 = .error .ProposalNotFound ∧
      vote st8 2 3 .Yes 120961 true = .error .ProposalNotFound ∧
      revoke_proposal st8 1 3 120961 = .error .ProposalNotFound) ∧
    get_proposal st8 4 999999 = .ok prop4x :=
  ⟨(proposal_expiry st8 3 prop3p 120961 2 1 .Yes true (by decide)).1
      (by decide) (by decide),
   (proposal_expiry st8 4 prop4x 999999 2 1 .Yes true (by decide)).2
      (by decide)⟩

/-- The TypeScript client's CONTRACT_ERRORS map of numeric contract error
codes to human-readable messages, from
`examples/typescript/src/index.ts`. -/
def CONTRACT_ERRORS : List (Nat × String) :=
  [(1, "Contract has already been initialized"),
   (2, "Contract has not been initialized"),
   (5, "Invalid owner configuration (need at least 2 unique owners)"),
   (6, "Invalid threshold (must be between 2 and owner count)"),
   (8, "You are not an owner of this contract"),
   (9, "Proposal not found or expired"),
   (10, "You have already voted on this proposal"),
   (11, "Proposal is no longer pending"),
   (12, "Contract invocation failed"),
   (14, "No changes in proposed configuration"),
   (15, "Only the proposal creator can perform this action"),
   (19, "Use invoke() for contract calls, not propose()"),
   (22, "Invalid upgrade hash"),
   (23, "Target address is not a contract"),
   (24, "Function name cannot be empty")]

/-- The code-to-name column of the README's Error Handling table
(`README.md`, the table listing codes 2 through 24). -/
def readmeErrorNames : List (Nat × String) :=
  [(2, "NotInitialized"),
   (5, "InvalidOwners"),
   (6, "InvalidThreshold"),
   (8, "NotOwner"),
   (9, "ProposalNotFound"),
   (10, "VoterAlreadyVoted"),
   (11, "ProposalNotPending"),
   (12, "InvokeError"),
   (13, "NotUser"),
   (14, "NoConfigChanges"),
   (15, "NotCaller"),
   (18, "RuleNotAllowed"),
   (19, "InvokeNotAllowed"),
   (20, "EmptyUserRules"),
   (21, "NoRulesToRevoke"),
   (22, "InvalidUpgrade"),
   (23, "InvalidInvoke"),
   (24, "DuplicateRulesets")]

/-- The error conditions named across the documentation, as an enumerated
type, used to compare what the client and the README assign to each code. -/
inductive ErrName
  | AlreadyInitialized
  | NotInitialized
  | InvalidOwners
  | InvalidThreshold
  | NotOwner
  | ProposalNotFound
  | VoterAlreadyVoted
  | ProposalNotPending
  | InvokeError
  | NotUser
  | NoConfigChanges
  | NotCaller
  | RuleNotAllowed
  | InvokeNotAllowed
  | EmptyUserRules
  | NoRulesToRevoke
  | InvalidUpgrade
  | AddressNotExecutable
  | InvalidInvoke
  | InvalidFunctionName
  | DuplicateRulesets
deriving DecidableEq

/-- Parse an error name string from the README table into `ErrName`. -/
def parseErrName (s : String) : Option ErrName :=
  match s with
  | "AlreadyInitialized" => some .AlreadyInitialized
  | "NotInitialized" => some .NotInitialized
  | "InvalidOwners" => some .InvalidOwners
  | "InvalidThreshold" => some .InvalidThreshold
  | "NotOwner" => some .NotOwner
  | "ProposalNotFound" => some .ProposalNotFound
  | "VoterAlreadyVoted" => some .VoterAlreadyVoted
  | "ProposalNotPending" => some .ProposalNotPending
  | "InvokeError" => some .InvokeError
  | "NotUser" => some .NotUser
  | "NoConfigChanges" => some .NoConfigChanges
  | "NotCaller" => some .NotCaller
  | "RuleNotAllowed" => some .RuleNotAllowed
  | "InvokeNotAllowed" => some .InvokeNotAllowed
  | "EmptyUserRules" => some .EmptyUserRules
  | "NoRulesToRevoke" => some .NoRulesToRevoke
  | "InvalidUpgrade" => some .InvalidUpgrade
  | "AddressNotExecutable" => some .AddressNotExecutable
  | "InvalidInvoke" => some .InvalidInvoke
  | "InvalidFunctionName" => some .InvalidFunctionName
  | "DuplicateRulesets" => some .DuplicateRulesets
  | _ => none

/-- The error condition each client message denotes, code by code. The
assignment follows `troubleshooting.md`, which names each of these codes and
carries the same messages as the client (for example, code 23 "Target
address is not a contract" is the section AddressNotExecutable, and code 24
"Function name cannot be empty" is the section InvalidFunctionName). -/
def clientNameTable : List (Nat × ErrName) :=
  [(1, .AlreadyInitialized),
   (2, .NotInitialized),
   (5, .InvalidOwners),
   (6, .InvalidThreshold),
   (8, .NotOwner),
   (9, .ProposalNotFound),
   (10, .VoterAlreadyVoted),
   (11, .ProposalNotPending),
   (12, .InvokeError),
   (14, .NoConfigChanges),
   (15, .NotCaller),
   (19, .InvokeNotAllowed),
   (22, .InvalidUpgrade),
   (23, .AddressNotExecutable),
   (24, .InvalidFunctionName)]

/-- The error condition the client assigns to a code. -/
def clientErrName (c : Nat) : Option ErrName :=
  assocLookup c clientNameTable

/-- The error condition the README table assigns to a code (its Name
column, parsed). -/
def readmeErrName (c : Nat) : Option ErrName :=
  (assocLookup c readmeErrorNames).bind parseErrName

/-- The codes that appear in both the client map and the README table. -/
def sharedCodes : List Nat :=
  (CONTRACT_ERRORS.map Prod.fst).filter
    (fun c => (assocLookup c readmeErrorNames).isSome)

/-- C10 counterexample: at code 23 the client says the target address is not
a contract while the README's table says InvalidInvoke (invalid invoke call
structure), so the two tables do not agree on code 23. -/
theorem errorTable_code23_disagrees :
    assocLookup 23 CONTRACT_ERRORS = some "Target address is not a contract" ∧
    assocLookup 23 readmeErrorNames = some "InvalidInvoke" ∧
    clientErrName 23 = some ErrName.AddressNotExecutable ∧
    readmeErrName 23 = some ErrName.InvalidInvoke ∧
    clientErrName 23 ≠ readmeErrName 23 := by
  decide

/-- C10 amended: the client map and the README error table assign the same
error condition to every code they share except 23 and 24 (code 23:
target-address-not-a-contract versus InvalidInvoke; code 24:
empty-function-name versus DuplicateRulesets). -/
theorem errorTable_agreement_except_23_24 :
    ∀ c ∈ sharedCodes, c ≠ 23 → c ≠ 24 →
      clientErrName c = readmeErrName c ∧ (clientErrName c).isSome = true := by
  decide

/-- Witness for the amended C10 at code 2 (NotInitialized in both
tables). -/
theorem errorTable_agreement_witness :
    clientErrName 2 = readmeErrName 2 ∧ (clientErrName 2).isSome = true :=
  errorTable_agreement_except_23_24 2 (by decide) (by decide) (by decide)

end Volta
